import Mathlib

/-!
Verification development for the `launch-ide` library.

The development shallowly embeds the two source modules:
* `get-args.ts` — argument synthesis (`formatOpenPath`, `getArguments`,
  `getEditorBasenameByProcessName`, `getFormatByEditor`) and editor
  resolution (`guessEditor`, `getEditorByCustom`);
* the launcher module — `launchIDE`, `isTerminalEditor`,
  `getEnvFormatPath`, `getOpenWindowParams`, and the Windows escaping
  helpers `escapeCmdArgs` / `doubleQuoteIfNeeded`.

JavaScript strings are modelled through their character lists; the
external collaborators of the module (environment variables, the parsed
`.env.local` key/value map, the process-listing command output, `fs`
existence checks, `JSON.parse`, `path.relative`, and the running child
process handle) are modelled as explicit world records, so that the
whole pipeline is a pure, executable function from a world and a request
to the ordered list of observable effects.
-/

/-- The `process.platform` values the source distinguishes. -/
inductive Platform where
  | darwin : Platform
  | linux : Platform
  | win32 : Platform
deriving DecidableEq, Repr

/-! ## JavaScript string primitives, modelled on `List Char` -/

/-- Membership test for one character, modelling JS `String.prototype.includes`
for a single-character needle. -/
def hasChar (c : Char) : List Char → Bool
  | [] => false
  | d :: rest => d = c || hasChar c rest

/-- Lower-casing, modelling `String.prototype.toLowerCase` on ASCII data. -/
def jsToLower (s : String) : String :=
  ⟨s.data.map Char.toLower⟩

/-- Suffix test, modelling `String.prototype.endsWith`. -/
def jsEndsWith (s post : String) : Bool :=
  post.data.reverse.isPrefixOf s.data.reverse

/-- Prefix test, modelling `String.prototype.startsWith`. -/
def jsStartsWith (s pre : String) : Bool :=
  pre.data.isPrefixOf s.data

/-- Substring test, modelling `String.prototype.indexOf(x) !== -1`. -/
def listIsInfix (sub : List Char) : List Char → Bool
  | [] => sub.isPrefixOf ([] : List Char)
  | c :: rest => sub.isPrefixOf (c :: rest) || listIsInfix sub rest

/-- Whitespace trimming on both ends, modelling `String.prototype.trim`. -/
def jsTrim (s : String) : String :=
  ⟨((s.data.dropWhile Char.isWhitespace).reverse.dropWhile Char.isWhitespace).reverse⟩

/-- Fuel-driven splitting worker for `jsSplit`; the fuel is an upper bound on
the number of characters still to be consumed, so the function is total. -/
def splitGo (sep : List Char) : Nat → List Char → List Char → List (List Char)
  | 0, s, acc => [acc.reverse ++ s]
  | _ + 1, [], acc => [acc.reverse]
  | fuel + 1, c :: rest, acc =>
    if sep.isPrefixOf (c :: rest) then
      acc.reverse :: splitGo sep fuel (rest.drop (sep.length - 1)) []
    else
      splitGo sep fuel rest (c :: acc)

/-- Splitting on a non-empty separator string, modelling
`String.prototype.split` as used on process-listing output. -/
def jsSplit (s sep : String) : List String :=
  (splitGo sep.data (s.data.length + 1) s.data []).map (fun l => (⟨l⟩ : String))

/-- Joining with single spaces, modelling `Array.prototype.join(" ")`. -/
def joinSpace : List String → String
  | [] => ""
  | x :: xs => xs.foldl (fun acc s => acc ++ " " ++ s) x

/-! ## `String.prototype.replace` with a string pattern

ECMA-262 string replacement finds the first occurrence of the pattern and
splices in the replacement after expanding the dollar escape sequences
`$$`, `$&` (the matched text), `$`+backquote (the text before the match)
and `$'` (the text after the match); all other text is copied literally. -/

/-- Index of the first occurrence of `pat` in the string, if any
(`String.prototype.indexOf` for a string needle). -/
def firstOccur? (pat : List Char) : List Char → Option Nat
  | [] => if pat.isPrefixOf ([] : List Char) then some 0 else none
  | c :: rest =>
    if pat.isPrefixOf (c :: rest) then some 0
    else (firstOccur? pat rest).map (· + 1)

/-- The backquote character, written by code point. -/
def backquoteChar : Char := Char.ofNat 96

/-- The single-quote character, written by code point. -/
def singleQuoteChar : Char := Char.ofNat 39

/-- ECMA-262 `GetSubstitution` for a string search value: expand the dollar
escape sequences of the replacement text. `m` is the matched text, `b` the
part of the subject before the match, `a` the part after it. -/
def expandSubst (m b a : List Char) : List Char → List Char
  | [] => []
  | c :: rest =>
    if c = '$' then
      match rest with
      | [] => [c]
      | d :: rest2 =>
        if d = '$' then '$' :: expandSubst m b a rest2
        else if d = '&' then m ++ expandSubst m b a rest2
        else if d = backquoteChar then b ++ expandSubst m b a rest2
        else if d = singleQuoteChar then a ++ expandSubst m b a rest2
        else '$' :: expandSubst m b a (d :: rest2)
    else c :: expandSubst m b a rest

/-- `String.prototype.replace` with a string pattern and string replacement:
replace the first occurrence of `pat` in `s` by the expanded `repl`. -/
def listReplaceJS (s pat repl : List Char) : List Char :=
  match firstOccur? pat s with
  | none => s
  | some i =>
    s.take i ++ expandSubst pat (s.take i) (s.drop (i + pat.length)) repl
      ++ s.drop (i + pat.length)

/-- String-level wrapper of `listReplaceJS`. -/
def jsStringReplace (s pat repl : String) : String :=
  ⟨listReplaceJS s.data pat.data repl.data⟩

/-- Literal first-occurrence replacement, written after the specification's
words ("substitution is literal string replacement, first occurrence only
per placeholder per template"); used to compare the spec's description with
the source's JS replacement semantics. -/
def literalReplaceFirst (pat repl : List Char) : List Char → List Char
  | [] => if pat.isPrefixOf ([] : List Char) then repl ++ ([] : List Char).drop pat.length else []
  | c :: rest =>
    if pat.isPrefixOf (c :: rest) then repl ++ (c :: rest).drop pat.length
    else c :: literalReplaceFirst pat repl rest

/-! ## Argument synthesis (`get-args.ts`) -/

/-- Placeholder constant `FormatFile`. -/
def FormatFile : String := "{file}"

/-- Placeholder constant `FormatLine`. -/
def FormatLine : String := "{line}"

/-- Placeholder constant `FormatColumn`. -/
def FormatColumn : String := "{column}"

/-- The `string | string[] | boolean` union flowing through `formatOpenPath`
and the `pathFormat` parameters. -/
inductive PathFormat where
  | str : String → PathFormat
  | list : List String → PathFormat
  | bool : Bool → PathFormat
deriving DecidableEq, Repr

/-- JS truthiness of a `PathFormat` value: the empty string and `false` are
falsy, every array (even the empty one) is truthy. -/
def pathFormatTruthy : PathFormat → Bool
  | PathFormat.str s => !(s == "")
  | PathFormat.list _ => true
  | PathFormat.bool b => b

/-- The chained placeholder substitution applied to one template fragment:
`item.replace(FormatFile, file).replace(FormatLine, line).replace(FormatColumn, column)`.
`line`/`column` arrive already converted by `toString`, which is the identity
on strings and decimal rendering on numbers. -/
def substituteFormat (file line column : String) (item : String) : String :=
  jsStringReplace (jsStringReplace (jsStringReplace item FormatFile file) FormatLine line)
    FormatColumn column

/-- `formatOpenPath(file, line, column, format)` from `get-args.ts`. -/
def formatOpenPath (file line column : String) (format : PathFormat) : List String :=
  match format with
  | PathFormat.str f => [substituteFormat file line column f]
  | PathFormat.list items => items.map (substituteFormat file line column)
  | PathFormat.bool _ => [file ++ ":" ++ line ++ ":" ++ column]

/-- Modelled from the spec: `COMMON_EDITOR_PROCESS_MAP`, the static per-OS
table from canonical editor name to known process-path suffixes, is imported
from `./editor-info`, which is not among the given sources. The spec treats
it as a read-only input data asset mapping canonical lowercase editor names
to one-or-more executable locations / process-name suffixes, used both for
process-detection matching and for deriving the launch command; this is a
representative such table. -/
def COMMON_EDITOR_PROCESS_MAP : Platform → List (String × List String)
  | Platform.darwin =>
    [("code", ["code"]), ("webstorm", ["webstorm"]), ("idea", ["idea"]),
     ("sublime_text", ["sublime_text", "subl"]), ("atom", ["atom"]),
     ("gvim", ["gvim"]), ("vim", ["vim"]), ("emacs", ["emacs"]), ("nano", ["nano"])]
  | Platform.linux =>
    [("code", ["code"]), ("code-insiders", ["code-insiders"]), ("webstorm", ["webstorm"]),
     ("idea", ["idea"]), ("sublime_text", ["sublime_text", "subl"]), ("atom", ["atom"]),
     ("gvim", ["gvim"]), ("vim", ["vim"]), ("emacs", ["emacs"]), ("nano", ["nano"])]
  | Platform.win32 =>
    [("code", ["Code.exe"]), ("webstorm", ["webstorm64.exe"]), ("idea", ["idea64.exe"]),
     ("sublime_text", ["sublime_text.exe"]), ("atom", ["atom.exe"]),
     ("gvim", ["gvim.exe"]), ("vim", ["vim.exe"]), ("emacs", ["emacs.exe"]),
     ("nano", ["nano.exe"])]

/-- Modelled from the spec: `COMMON_EDITORS_MAP`, the per-OS table from an
editor detection key to the command used to invoke it, also lives in the
missing `./editor-info`. On the Windows family the keys are process base
names; on macOS a value containing a path separator denotes an app path. -/
def COMMON_EDITORS_MAP : Platform → List (String × String)
  | Platform.darwin =>
    [("code", "code"),
     ("webstorm", "/Applications/WebStorm.app/Contents/MacOS/webstorm"),
     ("sublime_text", "subl"), ("vim", "vim"), ("emacs", "emacs"), ("nano", "nano")]
  | Platform.linux =>
    [("code", "code"), ("webstorm", "webstorm"), ("idea", "idea"),
     ("sublime_text", "subl"), ("atom", "atom"), ("gvim", "gvim"), ("vim", "vim"),
     ("emacs", "emacs"), ("nano", "nano")]
  | Platform.win32 =>
    [("Code.exe", "Code.exe"), ("webstorm64.exe", "webstorm64.exe"),
     ("gvim.exe", "gvim.exe"), ("vim.exe", "vim.exe")]

/-- Separator test used by the `path.basename` model. -/
def isSep (pl : Platform) (c : Char) : Bool :=
  if pl = Platform.win32 then c = '/' || c = '\\' else c = '/'

/-- Model of Node's `path.basename`: drop trailing separators, then keep the
segment after the last separator. -/
def pathBasename (pl : Platform) (p : String) : String :=
  let noTrail := (p.data.reverse.dropWhile (fun c => isSep pl c)).reverse
  ⟨(noTrail.reverse.takeWhile (fun c => !(isSep pl c))).reverse⟩

/-- The `.replace(/\.(exe|cmd|bat|sh)$/i, "")` step: strip one trailing
executable extension, case-insensitively. -/
def stripExecExt (s : String) : String :=
  let l := jsToLower s
  if jsEndsWith l ".exe" || jsEndsWith l ".cmd" || jsEndsWith l ".bat" then
    ⟨s.data.take (s.data.length - 4)⟩
  else if jsEndsWith l ".sh" then ⟨s.data.take (s.data.length - 3)⟩
  else s

/-- `getEditorBasenameByProcessName` from `get-args.ts`: take the base file
name without executable extension, override it with the first table entry one
of whose recorded paths is a suffix of the raw process name, and lower-case
the result. -/
def getEditorBasenameByProcessName (pl : Platform) (processName : String) : String :=
  let editorBasename := stripExecExt (pathBasename pl processName)
  match (COMMON_EDITOR_PROCESS_MAP pl).find?
      (fun e => e.2.any (fun ep => jsEndsWith processName ep)) with
  | some e => jsToLower e.1
  | none => jsToLower editorBasename

/-- Parameter record of `getFormatByEditor`. -/
structure GetEditorFormatParams where
  editorBasename : String
  openWindowParams : String
  workspace : Option String
deriving DecidableEq, Repr

/-- The editors of the `file:line:column` switch group. -/
def fileLineColumnBasenames : List String :=
  ["atom", "atom beta", "subl", "sublime", "sublime_text", "wstorm", "charm", "zed"]

/-- The editors of the VS-Code switch group. -/
def vscodeFamilyBasenames : List String :=
  ["code", "code-insiders", "code - insiders", "codium", "cursor", "windsurf",
   "vscodium", "hbuilderx", "hbuilder"]

/-- The editors of the JetBrains switch group. -/
def jetbrainsFamilyBasenames : List String :=
  ["appcode", "clion", "clion64", "idea", "idea64", "phpstorm", "phpstorm64",
   "pycharm", "pycharm64", "rubymine", "rubymine64", "webstorm", "webstorm64",
   "goland", "goland64", "rider", "rider64"]

/-- `workspace ? [workspace] : []` — `null` and the empty string are falsy. -/
def truthyStrList : Option String → List String
  | some w => if w = "" then [] else [w]
  | none => []

/-- `openWindowParams ? [openWindowParams] : []`. -/
def owpList (owp : String) : List String :=
  if owp = "" then [] else [owp]

/-- `getFormatByEditor` from `get-args.ts`: the per-family format switch;
editors outside every family yield the empty string. -/
def getFormatByEditor (p : GetEditorFormatParams) : PathFormat :=
  let b := p.editorBasename
  if fileLineColumnBasenames.contains b then
    PathFormat.str (FormatFile ++ ":" ++ FormatLine ++ ":" ++ FormatColumn)
  else if b = "notepad++" then
    PathFormat.list ["-n" ++ FormatLine, "-c" ++ FormatColumn, FormatFile]
  else if b = "vim" ∨ b = "mvim" then
    PathFormat.list ["+call cursor(" ++ FormatLine ++ ", " ++ FormatColumn ++ ")", FormatFile]
  else if b = "joe" ∨ b = "gvim" then
    PathFormat.list ["+" ++ FormatLine, FormatFile]
  else if b = "emacs" ∨ b = "emacsclient" then
    PathFormat.list ["+" ++ FormatLine ++ ":" ++ FormatColumn, FormatFile]
  else if b = "rmate" ∨ b = "mate" ∨ b = "mine" then
    PathFormat.list ["--line", FormatLine, FormatFile]
  else if vscodeFamilyBasenames.contains b then
    PathFormat.list (truthyStrList p.workspace ++ ["-g"] ++ owpList p.openWindowParams
      ++ [FormatFile ++ ":" ++ FormatLine ++ ":" ++ FormatColumn])
  else if jetbrainsFamilyBasenames.contains b then
    PathFormat.list (truthyStrList p.workspace ++ ["--line", FormatLine, FormatFile])
  else PathFormat.str ""

/-- Parameter record of `getArguments`. `lineNumber`/`colNumber` are the
`string | number` union, represented after `toString`. -/
structure GetArgumentsParams where
  processName : String
  fileName : String
  lineNumber : String
  colNumber : String
  workspace : Option String
  openWindowParams : String
  pathFormat : Option PathFormat
deriving DecidableEq, Repr

/-- `getArguments` from `get-args.ts`: resolve the editor base name, look up
its family format, default to `"{file}"` when the lookup yields the falsy
empty string, let a truthy `pathFormat` override it, and substitute. -/
def getArguments (pl : Platform) (p : GetArgumentsParams) : List String :=
  let editorBasename := getEditorBasenameByProcessName pl p.processName
  let format0 := getFormatByEditor ⟨editorBasename, p.openWindowParams, p.workspace⟩
  let format := if pathFormatTruthy format0 then format0 else PathFormat.str FormatFile
  let chosen :=
    match p.pathFormat with
    | some pf => if pathFormatTruthy pf then pf else format
    | none => format
  formatOpenPath p.fileName p.lineNumber p.colNumber chosen

/-! ## Editor resolution (`guessEditor` from `guess.ts`)

The resolver's external inputs — `process.env`, the parsed `.env.local`
file, and the output of the process-listing command (with its Windows
backup command) — are collected in a `GuessWorld` record. Whether the
resolver reached process enumeration (the `execSync` call) is recorded in
the `enumerated` field of the result. -/

/-- The external inputs of one `guessEditor` run. `envLocal` is `none` when
`.env.local` does not exist, otherwise the key/value map produced by the
external `dotenv.parse`. `procPrimary`/`procBackup` are the outputs of the
process-listing commands, `none` meaning the command threw. -/
structure GuessWorld where
  platform : Platform
  codeEditorEnv : Option String
  envLocal : Option (List (String × String))
  visual : Option String
  editorEnv : Option String
  procPrimary : Option String
  procBackup : Option String
deriving DecidableEq, Repr

/-- JS truthiness of an optional environment variable: unset and the empty
string are falsy. -/
def envTruthy : Option String → Bool
  | some s => !(s == "")
  | none => false

/-- Lookup in a parsed key/value configuration map. -/
def lookupCfg (cfg : List (String × String)) (key : String) : Option String :=
  (cfg.find? (fun e => e.1 == key)).map (fun e => e.2)

/-- `getEditorByCustom` from `guess.ts`: exact key lookup in the platform's
`COMMON_EDITOR_PROCESS_MAP`, `null` when absent. -/
def getEditorByCustom (pl : Platform) (editor : String) : Option (List String) :=
  ((COMMON_EDITOR_PROCESS_MAP pl).find? (fun e => e.1 == editor)).map (fun e => e.2)

/-- Result of `guessEditor`: the returned array (whose single element is the
editor command, or `null`), plus whether process enumeration was reached. -/
structure GuessResult where
  result : List (Option String)
  enumerated : Bool
deriving DecidableEq, Repr

/-- The environment-variable fallback at the end of `guessEditor`:
`VISUAL`, then `EDITOR`, then `[null]`. -/
def guessEnvFallback (w : GuessWorld) (enumerated : Bool) : GuessResult :=
  if envTruthy w.visual then ⟨[some (w.visual.getD "")], enumerated⟩
  else if envTruthy w.editorEnv then ⟨[some (w.editorEnv.getD "")], enumerated⟩
  else ⟨[none], enumerated⟩

/-- The process-listing output actually obtained: the primary command's
output; on its failure the Windows family retries with the backup command
while the other families continue with the initial empty string. `none`
means the whole `try` block aborted. -/
def procOutput (w : GuessWorld) : Option String :=
  match w.procPrimary with
  | some o => some o
  | none => if w.platform = Platform.win32 then w.procBackup else some ""

/-- One iteration of the detection loop: does `entry` of `COMMON_EDITORS_MAP`
match a running process, and with which `(runningEditor, editor)` pair? -/
def matchEditor (pl : Platform) (runningProcesses : List String) (output : String)
    (entry : String × String) : Option (String × String) :=
  if pl = Platform.win32 then
    match runningProcesses.find? (fun p => pathBasename Platform.win32 p == entry.1) with
    | some processPath => some (pathBasename Platform.win32 processPath, processPath)
    | none => none
  else if pl = Platform.darwin then
    match runningProcesses.find? (fun p => jsEndsWith p entry.1) with
    | some rp =>
      let prefixPath := jsStringReplace rp entry.1 ""
      let processName := entry.2
      if hasChar '/' processName.data then some (entry.1, prefixPath ++ processName)
      else some (entry.1, processName)
    | none => none
  else
    if listIsInfix entry.1.data output.data then some (entry.1, entry.2) else none

/-- The detection matches, in table-iteration order, filtered by the
`if (runningEditor && editor)` truthiness check of the loop. -/
def scanMatches (pl : Platform) (runningProcesses : List String) (output : String)
    (entries : List (String × String)) : List (String × String) :=
  entries.filterMap (fun e =>
    match matchEditor pl runningProcesses output e with
    | some m => if m.1 ≠ "" ∧ m.2 ≠ "" then some m else none
    | none => none)

/-- The live-process-inspection stage of `guessEditor`: enumerate processes,
return the first match preferred by `customEditors` immediately, otherwise
the first match overall, otherwise fall back to the environment variables.
Every path through this stage has performed process enumeration. -/
def guessEditorScan (w : GuessWorld) (custom : Option (List String)) : GuessResult :=
  match procOutput w with
  | none => guessEnvFallback w true
  | some output =>
    let sep := if w.platform = Platform.win32 then "\r\n" else "\n"
    let runningProcesses := (jsSplit output sep).map jsTrim
    let ms := scanMatches w.platform runningProcesses output (COMMON_EDITORS_MAP w.platform)
    match ms.find? (fun m => (custom.getD []).contains m.1) with
    | some m => ⟨[some m.2], true⟩
    | none =>
      match ms.head? with
      | some m => ⟨[some m.2], true⟩
      | none => guessEnvFallback w true

/-- Step 3 of `guessEditor`: a truthy caller-supplied editor parameter is
looked up in the table only when no earlier step set `customEditors`; a
failed lookup leaves `customEditors` unset (no early return). -/
def guessEditorStep3 (w : GuessWorld) (editorParam : Option String)
    (custom : Option (List String)) : GuessResult :=
  let custom2 :=
    match editorParam, custom with
    | some e, none => if e = "" then none else getEditorByCustom w.platform e
    | _, _ => custom
  guessEditorScan w custom2

/-- Step 2 of `guessEditor`: the `.env.local` `CODE_EDITOR` entry, considered
only when the file exists and no earlier step set `customEditors`; an entry
absent from the table is returned literally with no process enumeration. -/
def guessEditorStep2 (w : GuessWorld) (editorParam : Option String)
    (custom : Option (List String)) : GuessResult :=
  match w.envLocal, custom with
  | some cfg, none =>
    match lookupCfg cfg "CODE_EDITOR" with
    | some v =>
      if v = "" then guessEditorStep3 w editorParam none
      else
        match getEditorByCustom w.platform v with
        | some ed => guessEditorStep3 w editorParam (some ed)
        | none => ⟨[some v], false⟩
    | none => guessEditorStep3 w editorParam none
  | _, _ => guessEditorStep3 w editorParam custom

/-- `guessEditor` from `guess.ts`. Step 1 consults `process.env.CODE_EDITOR`:
a truthy value found in the table becomes the preferred `customEditors`,
a truthy value absent from the table is returned immediately and literally. -/
def guessEditor (w : GuessWorld) (editorParam : Option String) : GuessResult :=
  match w.codeEditorEnv with
  | some ce =>
    if ce = "" then guessEditorStep2 w editorParam none
    else
      match getEditorByCustom w.platform ce with
      | some ed => guessEditorStep2 w editorParam (some ed)
      | none => ⟨[some ce], false⟩
  | none => guessEditorStep2 w editorParam none

/-! ## The launcher (`launchIDE`) -/

/-- The `IDEOpenMethod` union. -/
inductive IDEOpenMethod where
  | reuse : IDEOpenMethod
  | new : IDEOpenMethod
deriving DecidableEq, Repr

/-- `getOpenWindowParams`: `reuse` ↦ `-r`, `new` ↦ `-n`, otherwise the empty
string. -/
def getOpenWindowParams : Option IDEOpenMethod → String
  | some IDEOpenMethod.reuse => "-r"
  | some IDEOpenMethod.new => "-n"
  | _ => ""

/-- `isTerminalEditor`: the fixed terminal-attached editor set. -/
def isTerminalEditor (editor : String) : Bool :=
  editor == "vim" || editor == "emacs" || editor == "nano"

/-- `escapeCmdArgs`: prefix every `cmd` metacharacter
(`& | < > , ; = ^`) with a caret (a global regex replacement). -/
def isCmdMeta (c : Char) : Bool :=
  c = '&' || c = '|' || c = '<' || c = '>' || c = ',' || c = ';' || c = '=' || c = '^'

/-- The Windows metacharacter escaping helper defined inside `launchIDE`. -/
def escapeCmdArgs (s : String) : String :=
  ⟨s.data.foldr (fun c acc => if isCmdMeta c then '^' :: c :: acc else c :: acc) []⟩

/-- The Windows quoting helper defined inside `launchIDE`: caret-quote a
string containing a caret, else double-quote a string containing a space,
else leave it unchanged. -/
def doubleQuoteIfNeeded (s : String) : String :=
  if hasChar '^' s.data then "^\"" ++ s ++ "^\""
  else if hasChar ' ' s.data then "\"" ++ s ++ "\""
  else s

/-- The observable effects of one `launchIDE` call, in program order:
killing the tracked child, spawning (`child_process.spawn`) or shell-executing
(`child_process.exec`) the editor, invoking the `onError` callback
synchronously, or printing instructions to the console. -/
inductive IdeEvent where
  | killPrevious : IdeEvent
  | execCmd : String → IdeEvent
  | spawnCmd : String → List String → IdeEvent
  | errorCallback : String → String → IdeEvent
  | printInstructions : IdeEvent
deriving DecidableEq, Repr

/-- The external state consulted by `launchIDE`: the resolver's world, the
set of files that exist on disk, `os.release()`, whether a previously
launched child process is still tracked (`_childProcess !== null`), the raw
`CODE_INSPECTOR_FORMAT_PATH` variable, and oracles for the external
`JSON.parse` and `path.relative("", ·)`. -/
structure IdeWorld where
  guess : GuessWorld
  existingFiles : List String
  osRelease : String
  tracked : Bool
  formatPathEnv : Option String
  jsonParse : String → Option PathFormat
  relativeToCwd : String → String

/-- `getEnvFormatPath` from the launcher module: the webpack environment
variable first (a parse failure returns `null` immediately), then the
`.env.local` entry. -/
def getEnvFormatPath (w : IdeWorld) : Option PathFormat :=
  if envTruthy w.formatPathEnv then w.jsonParse (w.formatPathEnv.getD "")
  else
    match w.guess.envLocal with
    | some cfg =>
      match lookupCfg cfg "CODE_INSPECTOR_FORMAT_PATH" with
      | some v => if v = "" then none else w.jsonParse v
      | none => none
    | none => none

/-- One `launchIDE` request. `line`/`column` are the optional fields of the
parameter object (destructured with default `1`); `hasOnError` records
whether an `onError` callback was supplied. -/
structure LaunchParams where
  file : String
  line : Option Nat
  column : Option Nat
  editor : Option String
  method : Option IDEOpenMethod
  format : Option PathFormat
  hasOnError : Bool

/-- The resolution-failure message. -/
def resolutionFailureMessage : String := "Failed to recognize IDE automatically"

/-- `launchIDE` from the launcher module, as the ordered list of its
observable effects. -/
def launchIDE (w : IdeWorld) (p : LaunchParams) : List IdeEvent :=
  let line := p.line.getD 1
  let column := p.column.getD 1
  if w.existingFiles.contains p.file then
    let g := guessEditor w.guess p.editor
    let pathFormat : Option PathFormat :=
      match getEnvFormatPath w with
      | some f => if pathFormatTruthy f then some f else p.format
      | none => p.format
    match g.result.head?.getD none with
    | none =>
      if p.hasOnError then [IdeEvent.errorCallback p.file resolutionFailureMessage]
      else [IdeEvent.printInstructions]
    | some editor =>
      if jsToLower editor = "none" then
        if p.hasOnError then [IdeEvent.errorCallback p.file resolutionFailureMessage]
        else [IdeEvent.printInstructions]
      else
        let file :=
          if w.guess.platform = Platform.linux ∧ jsStartsWith p.file "/mnt/" = true
              ∧ listIsInfix "microsoft".data (jsToLower w.osRelease).data = true then
            w.relativeToCwd p.file
          else p.file
        let args0 := (g.result.drop 1).filterMap id
        let args :=
          if line = 0 then args0 ++ [file]
          else
            args0 ++ getArguments w.guess.platform
              ⟨editor, file, toString line, toString column, none,
               getOpenWindowParams p.method, pathFormat⟩
        let kills :=
          if w.tracked = true ∧ isTerminalEditor editor = true then [IdeEvent.killPrevious]
          else []
        if w.guess.platform = Platform.win32 then
          kills ++ [IdeEvent.execCmd
            (joinSpace ((editor :: args.map escapeCmdArgs).map doubleQuoteIfNeeded))]
        else kills ++ [IdeEvent.spawnCmd editor args]
  else []

/-! ## Concrete worlds and requests used by witnesses and counterexamples -/

/-- A world whose `CODE_EDITOR` is `vim` (a table key) while a `vim` process
is running, so resolution returns the preferred `vim`. -/
def guessWorldVim : GuessWorld :=
  { platform := Platform.linux, codeEditorEnv := some "vim", envLocal := none,
    visual := none, editorEnv := none, procPrimary := some "vim\n", procBackup := none }

/-- A launcher world around `guessWorldVim` with `a.js` on disk and no
tracked child process. -/
def ideWorldVim : IdeWorld :=
  { guess := guessWorldVim, existingFiles := ["a.js"], osRelease := "5.10.0",
    tracked := false, formatPathEnv := none, jsonParse := fun _ => none,
    relativeToCwd := fun s => s }

/-- `ideWorldVim` with a tracked child process. -/
def ideWorldVimTracked : IdeWorld := { ideWorldVim with tracked := true }

/-- A world whose `CODE_EDITOR` names the unknown command `myed`, which
resolution returns literally. -/
def guessWorldMyed : GuessWorld :=
  { platform := Platform.linux, codeEditorEnv := some "myed", envLocal := none,
    visual := none, editorEnv := none, procPrimary := some "", procBackup := none }

/-- A launcher world around `guessWorldMyed` with a tracked child process. -/
def ideWorldMyedTracked : IdeWorld :=
  { guess := guessWorldMyed, existingFiles := ["a.js"], osRelease := "5.10.0",
    tracked := true, formatPathEnv := none, jsonParse := fun _ => none,
    relativeToCwd := fun s => s }

/-- A world whose `CODE_EDITOR` is the unknown command `NONE`, which
resolution returns literally. -/
def guessWorldNone : GuessWorld :=
  { platform := Platform.linux, codeEditorEnv := some "NONE", envLocal := none,
    visual := none, editorEnv := none, procPrimary := some "", procBackup := none }

/-- A launcher world around `guessWorldNone`. -/
def ideWorldNone : IdeWorld :=
  { guess := guessWorldNone, existingFiles := ["a.js"], osRelease := "5.10.0",
    tracked := false, formatPathEnv := none, jsonParse := fun _ => none,
    relativeToCwd := fun s => s }

/-- A world whose `CODE_EDITOR` names the unknown command `myeditor`. -/
def guessWorldOverride : GuessWorld :=
  { platform := Platform.linux, codeEditorEnv := some "myeditor", envLocal := none,
    visual := none, editorEnv := none, procPrimary := some "", procBackup := none }

/-- A world whose `.env.local` names the unknown command `myeditor`. -/
def guessWorldEnvLocal : GuessWorld :=
  { platform := Platform.linux, codeEditorEnv := none,
    envLocal := some [("CODE_EDITOR", "myeditor")],
    visual := none, editorEnv := none, procPrimary := some "", procBackup := none }

/-- A world with no configuration at all; only the caller-supplied editor
parameter could name an editor. -/
def guessWorldParam : GuessWorld :=
  { platform := Platform.linux, codeEditorEnv := none, envLocal := none,
    visual := none, editorEnv := none, procPrimary := some "", procBackup := none }

/-- A request for `a.js` with the `line` field omitted. -/
def paramsNoLine : LaunchParams :=
  { file := "a.js", line := none, column := none, editor := none, method := none,
    format := none, hasOnError := false }

/-- A request for `a.js` whose `line` field is explicitly `0`. -/
def paramsZeroLine : LaunchParams :=
  { file := "a.js", line := some 0, column := none, editor := none, method := none,
    format := none, hasOnError := false }

/-- A request for `a.js` at line 5, column 2. -/
def paramsLine5 : LaunchParams :=
  { file := "a.js", line := some 5, column := some 2, editor := none, method := none,
    format := none, hasOnError := false }

/-- A request for `a.js` that supplies an `onError` callback. -/
def paramsOnError : LaunchParams :=
  { file := "a.js", line := none, column := none, editor := none, method := none,
    format := none, hasOnError := true }

/-- A request for a file that does not exist on disk in the worlds above. -/
def paramsMissing : LaunchParams :=
  { file := "missing.js", line := none, column := none, editor := none, method := none,
    format := none, hasOnError := true }

/-- Discriminates the two process-creating events. -/
def isLaunchEvent : IdeEvent → Bool
  | IdeEvent.execCmd _ => true
  | IdeEvent.spawnCmd _ _ => true
  | _ => false

/-! ## Supporting lemmas -/

/-- Dollar-free replacement text is copied verbatim by `expandSubst`. -/
theorem expandSubst_no_dollar (m b a : List Char) :
    ∀ repl, hasChar '$' repl = false → expandSubst m b a repl = repl := by
  intro repl
  induction repl with
  | nil => intro _; rfl
  | cons c rest ih =>
    intro h
    simp only [hasChar, Bool.or_eq_false_iff, decide_eq_false_iff_not] at h
    obtain ⟨hc, hrest⟩ := h
    rw [expandSubst.eq_def]
    simp [hc, ih hrest]

/-- Every list is a `isPrefixOf`-prefix of itself. -/
theorem isPrefixOf_refl_char (l : List Char) : l.isPrefixOf l = true := by
  induction l with
  | nil => rfl
  | cons c rest ih => simp [List.isPrefixOf, ih]

/-- The first occurrence of a pattern inside itself is at index 0. -/
theorem firstOccur?_self (pat : List Char) : firstOccur? pat pat = some 0 := by
  cases pat with
  | nil => rfl
  | cons c rest => simp [firstOccur?, isPrefixOf_refl_char]

/-- A pattern with no occurrence leaves the subject unchanged. -/
theorem listReplaceJS_not_found (s pat repl : List Char)
    (h : firstOccur? pat s = none) : listReplaceJS s pat repl = s := by
  simp [listReplaceJS, h]

/-- String version of `listReplaceJS_not_found`. -/
theorem jsStringReplace_not_found (s pat repl : String)
    (h : firstOccur? pat.data s.data = none) : jsStringReplace s pat repl = s := by
  unfold jsStringReplace
  rw [listReplaceJS_not_found _ _ _ h]

/-- Replacing a whole template that consists of exactly the pattern yields
the (dollar-free) replacement text. -/
theorem jsStringReplace_whole (pat repl : String)
    (h : hasChar '$' repl.data = false) : jsStringReplace pat pat repl = repl := by
  unfold jsStringReplace
  rw [listReplaceJS, firstOccur?_self]
  simp [expandSubst_no_dollar _ _ _ _ h]
  show (⟨repl.data ++ List.drop pat.data.length pat.data⟩ : String) = repl
  rw [List.drop_length, List.append_nil]

/-- With a dollar-free replacement, JS replacement coincides with the
spec's literal first-occurrence replacement. -/
theorem listReplaceJS_eq_literal (pat repl : List Char) (h : hasChar '$' repl = false) :
    ∀ s, listReplaceJS s pat repl = literalReplaceFirst pat repl s := by
  intro s
  induction s with
  | nil =>
    by_cases hp : pat.isPrefixOf ([] : List Char)
    · simp [listReplaceJS, firstOccur?, literalReplaceFirst, hp,
        expandSubst_no_dollar _ _ _ _ h]
    · simp [listReplaceJS, firstOccur?, literalReplaceFirst, hp]
  | cons c rest ih =>
    by_cases hp : pat.isPrefixOf (c :: rest)
    · simp [listReplaceJS, firstOccur?, literalReplaceFirst, hp,
        expandSubst_no_dollar _ _ _ _ h]
    · cases hfo : firstOccur? pat rest with
      | none =>
        have hrest : listReplaceJS rest pat repl = rest := by simp [listReplaceJS, hfo]
        rw [hrest] at ih
        simp [listReplaceJS, firstOccur?, hp, hfo, literalReplaceFirst, ← ih]
      | some i =>
        have hrest : listReplaceJS rest pat repl
            = rest.take i ++ repl ++ rest.drop (i + pat.length) := by
          simp [listReplaceJS, hfo, expandSubst_no_dollar _ _ _ _ h]
        simp only [listReplaceJS, firstOccur?, hp, if_false, hfo, Option.map_some,
          literalReplaceFirst, expandSubst_no_dollar _ _ _ _ h]
        rw [← ih, hrest]
        simp [List.take_succ_cons, Nat.add_right_comm _ 1 _, List.drop_succ_cons]

/-! ## Claim theorems -/

/-- Claim C6 (amended): `formatOpenPath` substitutes into every template
fragment replacing at most the first occurrence of each placeholder — a
string format yields a single-element list and a list format yields the
element-wise substituted list of the same length in the same order — and
the substitution agrees with the spec's literal first-occurrence
replacement whenever the substituted value contains no dollar sign (JS
replacement-pattern expansion applies otherwise). -/
theorem formatOpenPath_substitution_shape :
    ∀ (file line column : String),
      (∀ t, formatOpenPath file line column (PathFormat.str t)
          = [substituteFormat file line column t])
      ∧ (∀ ts, formatOpenPath file line column (PathFormat.list ts)
          = ts.map (substituteFormat file line column))
      ∧ (∀ (s pat repl : List Char), hasChar '$' repl = false →
          listReplaceJS s pat repl = literalReplaceFirst pat repl s) :=
  fun _ _ _ =>
    ⟨fun _ => rfl, fun _ => rfl,
     fun s pat repl h => listReplaceJS_eq_literal pat repl h s⟩

/-- Claim C6 witness: a concrete instance of the dollar-free part of the
amended claim, obtained from the claim theorem itself. -/
theorem formatOpenPath_substitution_shape_witness :
    listReplaceJS "ab{file}cd{file}ef".data "{file}".data "XY".data
      = literalReplaceFirst "{file}".data "XY".data "ab{file}cd{file}ef".data :=
  (formatOpenPath_substitution_shape "a" "b" "c").2.2 _ _ _ (by decide)

/-- Claim C6 counterexample: substitution is not literal string
substitution — a file value `$&` is expanded by JS string replacement to
the matched pattern, so `formatOpenPath` yields `{file}` where literal
substitution yields `$&`. -/
theorem formatOpenPath_literal_counterexample :
    formatOpenPath "$&" "1" "2" (PathFormat.str FormatFile) = ["{file}"]
    ∧ (⟨literalReplaceFirst FormatFile.data "$&".data FormatFile.data⟩ : String) = "$&"
    ∧ ("{file}" : String) ≠ "$&" :=
  ⟨by decide, by decide, by decide⟩

/-- Claim C7: on the Windows escaping path, an argument containing a caret
after metacharacter escaping is wrapped in caret-quotes, otherwise an
argument containing a space is wrapped in plain double quotes, and never
both; in particular the argument `C:\My Projects\a.js:1:1` is wrapped in
double quotes. -/
theorem windows_escaping_quoting :
    (∀ a : String,
      (hasChar '^' (escapeCmdArgs a).data = true
          ∧ doubleQuoteIfNeeded (escapeCmdArgs a) = "^\"" ++ escapeCmdArgs a ++ "^\"")
      ∨ (hasChar '^' (escapeCmdArgs a).data = false
          ∧ hasChar ' ' (escapeCmdArgs a).data = true
          ∧ doubleQuoteIfNeeded (escapeCmdArgs a) = "\"" ++ escapeCmdArgs a ++ "\"")
      ∨ (hasChar '^' (escapeCmdArgs a).data = false
          ∧ hasChar ' ' (escapeCmdArgs a).data = false
          ∧ doubleQuoteIfNeeded (escapeCmdArgs a) = escapeCmdArgs a))
    ∧ doubleQuoteIfNeeded (escapeCmdArgs "C:\\My Projects\\a.js:1:1")
        = "\"C:\\My Projects\\a.js:1:1\"" := by
  constructor
  · intro a
    cases h1 : hasChar '^' (escapeCmdArgs a).data with
    | true => exact Or.inl ⟨rfl, by simp [doubleQuoteIfNeeded, h1]⟩
    | false =>
      cases h2 : hasChar ' ' (escapeCmdArgs a).data with
      | true => exact Or.inr (Or.inl ⟨rfl, rfl, by simp [doubleQuoteIfNeeded, h1, h2]⟩)
      | false => exact Or.inr (Or.inr ⟨rfl, rfl, by simp [doubleQuoteIfNeeded, h1, h2]⟩)
  · decide

/-- Claim C5 (amended): a truthy custom format override — any non-empty
string or any list — always wins: `getArguments` returns exactly the
placeholder substitution applied to the override, ignoring the editor's
built-in family rule. The empty-string override is falsy and does not win. -/
theorem getArguments_override_wins (pl : Platform) (p : GetArgumentsParams)
    (pf : PathFormat) (hpf : p.pathFormat = some pf)
    (ht : pathFormatTruthy pf = true) :
    getArguments pl p = formatOpenPath p.fileName p.lineNumber p.colNumber pf := by
  simp [getArguments, hpf, ht]

/-- Claim C5 witness: a concrete truthy override on a `vim` request. -/
theorem getArguments_override_wins_witness :
    getArguments Platform.linux
        ⟨"vim", "a.js", "7", "3", none, "", some (PathFormat.str "go {file}")⟩
      = formatOpenPath "a.js" "7" "3" (PathFormat.str "go {file}") :=
  getArguments_override_wins Platform.linux _ _ rfl (by decide)

/-- Claim C5 counterexample: the empty-string override (a string) is
ignored — the `vim` family rule is applied instead of the override. -/
theorem getArguments_empty_override_counterexample :
    getArguments Platform.linux
        ⟨"vim", "a.js", "7", "3", none, "", some (PathFormat.str "")⟩
      = ["+call cursor(7, 3)", "a.js"]
    ∧ formatOpenPath "a.js" "7" "3" (PathFormat.str "") = [""]
    ∧ (["+call cursor(7, 3)", "a.js"] : List String) ≠ [""] :=
  ⟨by decide, by decide, by decide⟩

/-- Claim C9 (amended): normalization is idempotent on canonical names —
every key of the platform table is a fixed point of
`getEditorBasenameByProcessName` — but not on arbitrary process names. -/
theorem editor_basename_canonical_fixed_point :
    ∀ (pl : Platform) (k : String),
      (COMMON_EDITOR_PROCESS_MAP pl).any (fun e => e.1 == k) = true →
      getEditorBasenameByProcessName pl k = k := by
  intro pl k h
  cases pl with
  | darwin =>
    simp [COMMON_EDITOR_PROCESS_MAP] at h
    rcases h with rfl | rfl | rfl | rfl | rfl | rfl | rfl | rfl | rfl <;> decide
  | linux =>
    simp [COMMON_EDITOR_PROCESS_MAP] at h
    rcases h with rfl | rfl | rfl | rfl | rfl | rfl | rfl | rfl | rfl | rfl <;> decide
  | win32 =>
    simp [COMMON_EDITOR_PROCESS_MAP] at h
    rcases h with rfl | rfl | rfl | rfl | rfl | rfl | rfl | rfl | rfl <;> decide

/-- Claim C9 witness: the canonical name `vim` is a fixed point. -/
theorem editor_basename_canonical_fixed_point_witness :
    (COMMON_EDITOR_PROCESS_MAP Platform.linux).any (fun e => e.1 == "vim") = true
    ∧ getEditorBasenameByProcessName Platform.linux "vim" = "vim" :=
  ⟨by decide, editor_basename_canonical_fixed_point Platform.linux "vim" (by decide)⟩

/-- Claim C9 counterexample: normalization is not idempotent on every
process name — `zzz.exe.exe` loses one executable extension per
application, so normalizing the output again changes it. -/
theorem editor_basename_idempotent_counterexample :
    getEditorBasenameByProcessName Platform.linux "zzz.exe.exe" = "zzz.exe"
    ∧ getEditorBasenameByProcessName Platform.linux
        (getEditorBasenameByProcessName Platform.linux "zzz.exe.exe") = "zzz"
    ∧ ("zzz" : String) ≠ "zzz.exe" :=
  ⟨by decide, by decide, by decide⟩

/-- Claim C8: a request whose file does not exist on disk is a silent
no-op — `launchIDE` produces no effect at all: no spawn, no callback, no
console output. -/
theorem launchIDE_missing_file_noop (w : IdeWorld) (p : LaunchParams)
    (h : w.existingFiles.contains p.file = false) :
    launchIDE w p = [] := by
  have hmem : p.file ∉ w.existingFiles := by simpa using h
  simp [launchIDE, hmem]

/-- Claim C8 witness: a concrete request for a missing file. -/
theorem launchIDE_missing_file_noop_witness :
    launchIDE ideWorldVim paramsMissing = [] :=
  launchIDE_missing_file_noop ideWorldVim paramsMissing (by decide)

/-- The environment fallback propagates the enumeration flag unchanged. -/
theorem guessEnvFallback_enumerated (w : GuessWorld) (b : Bool) :
    (guessEnvFallback w b).enumerated = b := by
  unfold guessEnvFallback
  split_ifs <;> rfl

/-- Every path through the live-process-inspection stage has performed
process enumeration. -/
theorem guessEditorScan_enumerated (w : GuessWorld) (c : Option (List String)) :
    (guessEditorScan w c).enumerated = true := by
  unfold guessEditorScan
  cases hpo : procOutput w with
  | none => simp [hpo, guessEnvFallback_enumerated]
  | some out =>
    simp only [hpo]
    split
    · rfl
    · split
      · rfl
      · exact guessEnvFallback_enumerated w true

/-- Claim C1 (amended): for every editor whose canonical basename matches
no family rule in `getFormatByEditor` and every request without custom
format override, the synthesized format defaults to `"{file}"` — not
`"{file}:{line}:{column}"` — so `getArguments` returns the single-element
list `[file]`, the bare file path (for file values free of dollar escapes
and of the `{line}`/`{column}` placeholder tokens). -/
theorem getArguments_unknown_editor_default (pl : Platform)
    (pn file l c : String) (ws : Option String) (owp : String)
    (hfam : getFormatByEditor ⟨getEditorBasenameByProcessName pl pn, owp, ws⟩
      = PathFormat.str "")
    (hl : firstOccur? FormatLine.data file.data = none)
    (hc : firstOccur? FormatColumn.data file.data = none)
    (hd : hasChar '$' file.data = false) :
    getArguments pl ⟨pn, file, l, c, ws, owp, none⟩ = [file] := by
  have h1 : jsStringReplace FormatFile FormatFile file = file :=
    jsStringReplace_whole _ _ hd
  have h2 : jsStringReplace file FormatLine l = file :=
    jsStringReplace_not_found _ _ _ hl
  have h3 : jsStringReplace file FormatColumn c = file :=
    jsStringReplace_not_found _ _ _ hc
  simp [getArguments, hfam, pathFormatTruthy, formatOpenPath, substituteFormat,
    h1, h2, h3]

/-- Claim C1 witness: a concrete unknown editor. -/
theorem getArguments_unknown_editor_default_witness :
    getArguments Platform.linux ⟨"unkeditor", "a.js", "7", "3", none, "", none⟩
      = ["a.js"] :=
  getArguments_unknown_editor_default Platform.linux "unkeditor" "a.js" "7" "3" none ""
    (by decide) (by decide) (by decide) (by decide)

/-- Claim C1 counterexample: for the unknown editor `unkeditor` the
synthesized arguments are `["b.js"]`, not `["b.js:1:2"]`: the default
format is `"{file}"`, not `"{file}:{line}:{column}"`. -/
theorem getArguments_default_format_counterexample :
    getFormatByEditor ⟨getEditorBasenameByProcessName Platform.linux "unkeditor", "", none⟩
      = PathFormat.str ""
    ∧ getArguments Platform.linux ⟨"unkeditor", "b.js", "1", "2", none, "", none⟩ = ["b.js"]
    ∧ (["b.js"] : List String) ≠ ["b.js:1:2"] :=
  ⟨by decide, by decide, by decide⟩

/-- Claim C4 (amended): an environment-variable override or a
project-local configuration override naming a command absent from the
platform table is returned literally with no process enumeration; a
caller-supplied editor parameter naming an unknown command, however, is
not returned literally — it is ignored and resolution proceeds to process
enumeration. -/
theorem guessEditor_override_literal :
    (∀ (w : GuessWorld) (ep : Option String) (s : String),
      w.codeEditorEnv = some s → s ≠ "" → getEditorByCustom w.platform s = none →
      guessEditor w ep = ⟨[some s], false⟩)
    ∧ (∀ (w : GuessWorld) (ep : Option String) (cfg : List (String × String)) (s : String),
      w.codeEditorEnv = none → w.envLocal = some cfg →
      lookupCfg cfg "CODE_EDITOR" = some s → s ≠ "" →
      getEditorByCustom w.platform s = none →
      guessEditor w ep = ⟨[some s], false⟩)
    ∧ (∀ (w : GuessWorld) (e : String),
      w.codeEditorEnv = none → w.envLocal = none →
      getEditorByCustom w.platform e = none →
      (guessEditor w (some e)).enumerated = true) := by
  refine ⟨?_, ?_, ?_⟩
  · intro w ep s h1 h2 h3
    simp [guessEditor, h1, h2, h3]
  · intro w ep cfg s h1 h2 h3 h4 h5
    simp [guessEditor, guessEditorStep2, h1, h2, h3, h4, h5]
  · intro w e h1 h2 h3
    simp [guessEditor, guessEditorStep2, guessEditorStep3, h1, h2, h3,
      guessEditorScan_enumerated]

/-- Claim C4 witness: concrete worlds exercising all three parts. -/
theorem guessEditor_override_literal_witness :
    guessEditor guessWorldOverride none = ⟨[some "myeditor"], false⟩
    ∧ guessEditor guessWorldEnvLocal none = ⟨[some "myeditor"], false⟩
    ∧ (guessEditor guessWorldParam (some "myeditor")).enumerated = true :=
  ⟨guessEditor_override_literal.1 guessWorldOverride none "myeditor" rfl
      (by decide) (by decide),
   guessEditor_override_literal.2.1 guessWorldEnvLocal none
      [("CODE_EDITOR", "myeditor")] "myeditor" rfl rfl (by decide) (by decide) (by decide),
   guessEditor_override_literal.2.2 guessWorldParam "myeditor" rfl rfl (by decide)⟩

/-- Claim C4 counterexample: with no other configuration, a caller-supplied
editor parameter naming the unknown command `myeditor` is not returned
literally, and process enumeration is performed. -/
theorem guessEditor_param_override_counterexample :
    (guessEditor guessWorldParam (some "myeditor")).result ≠ [some "myeditor"]
    ∧ (guessEditor guessWorldParam (some "myeditor")).enumerated = true :=
  ⟨by decide, by decide⟩

/-- Claim C10: when resolution yields the literal string `none` in any
letter casing, `launchIDE` behaves exactly as on a resolution failure —
the `onError` callback (when supplied) receives the message
`Failed to recognize IDE automatically`, otherwise instructions are
printed to the console, and no process is spawned. -/
theorem launchIDE_editor_none_error (w : IdeWorld) (p : LaunchParams) (ed : String)
    (hfile : w.existingFiles.contains p.file = true)
    (hed : (guessEditor w.guess p.editor).result.head?.getD none = some ed)
    (hnone : jsToLower ed = "none") :
    launchIDE w p =
      if p.hasOnError then [IdeEvent.errorCallback p.file resolutionFailureMessage]
      else [IdeEvent.printInstructions] := by
  have hmem : p.file ∈ w.existingFiles := by simpa using hfile
  simp [launchIDE, hmem, hed, hnone]

/-- Claim C10 witness: resolution returns the literal `NONE`; with an
`onError` callback supplied, the callback is invoked with the failure
message and nothing is spawned. -/
theorem launchIDE_editor_none_error_witness :
    launchIDE ideWorldNone paramsOnError
      = [IdeEvent.errorCallback "a.js" resolutionFailureMessage] := by
  have h := launchIDE_editor_none_error ideWorldNone paramsOnError "NONE"
    (by decide) (by decide) (by decide)
  simpa [paramsOnError] using h

/-- Claim C3: when `launchIDE` resolves a terminal-family editor while a
previous child process is still tracked, a termination signal is issued
before the new process-creating event; when the resolved editor is not
terminal-family, no termination signal is ever issued. -/
theorem launchIDE_terminal_kill_discipline (w : IdeWorld) (p : LaunchParams) (ed : String)
    (hfile : w.existingFiles.contains p.file = true)
    (hed : (guessEditor w.guess p.editor).result.head?.getD none = some ed)
    (hnotnone : jsToLower ed ≠ "none") :
    (w.tracked = true → isTerminalEditor ed = true →
      ∃ e, launchIDE w p = [IdeEvent.killPrevious, e] ∧ isLaunchEvent e = true)
    ∧ (isTerminalEditor ed = false → IdeEvent.killPrevious ∉ launchIDE w p) := by
  have hmem : p.file ∈ w.existingFiles := by simpa using hfile
  constructor
  · intro htr hterm
    by_cases hw : w.guess.platform = Platform.win32
    · simp [launchIDE, hmem, hed, hnotnone, htr, hterm, hw]
      rfl
    · simp [launchIDE, hmem, hed, hnotnone, htr, hterm, hw]
      rfl
  · intro hterm
    by_cases hw : w.guess.platform = Platform.win32
    · simp [launchIDE, hmem, hed, hnotnone, hterm, hw]
    · simp [launchIDE, hmem, hed, hnotnone, hterm, hw]

/-- Claim C3 witness: with a tracked child, the terminal editor `vim` is
preceded by a kill; the non-terminal editor `myed` never kills. -/
theorem launchIDE_terminal_kill_discipline_witness :
    (∃ e, launchIDE ideWorldVimTracked paramsLine5 = [IdeEvent.killPrevious, e]
        ∧ isLaunchEvent e = true)
    ∧ IdeEvent.killPrevious ∉ launchIDE ideWorldMyedTracked paramsLine5 :=
  ⟨(launchIDE_terminal_kill_discipline ideWorldVimTracked paramsLine5 "vim"
      (by decide) (by decide) (by decide)).1 (by decide) (by decide),
   (launchIDE_terminal_kill_discipline ideWorldMyedTracked paramsLine5 "myed"
      (by decide) (by decide) (by decide)).2 (by decide)⟩

/-- Claim C2 (amended): a request whose `line` field is explicitly `0`
(the only falsy value) yields the argument list `[file]` with no format
substitution; an omitted `line` field instead defaults to `1`, so full
placeholder substitution is performed. -/
theorem launchIDE_zero_line_file_only (w : IdeWorld) (p : LaunchParams) (ed : String)
    (hres : (guessEditor w.guess p.editor).result = [some ed])
    (hfile : w.existingFiles.contains p.file = true)
    (hnotnone : jsToLower ed ≠ "none")
    (hline : p.line = some 0)
    (hpl : w.guess.platform = Platform.linux)
    (hmnt : jsStartsWith p.file "/mnt/" = false) :
    launchIDE w p =
      (if w.tracked = true ∧ isTerminalEditor ed = true then [IdeEvent.killPrevious] else [])
      ++ [IdeEvent.spawnCmd ed [p.file]] := by
  have hmem : p.file ∈ w.existingFiles := by simpa using hfile
  simp [launchIDE, hmem, hres, hnotnone, hline, hpl, hmnt]

/-- Claim C2 witness: an explicit `line: 0` request spawns `vim` with
exactly the file path as its only argument. -/
theorem launchIDE_zero_line_file_only_witness :
    launchIDE ideWorldVim paramsZeroLine = [IdeEvent.spawnCmd "vim" ["a.js"]] := by
  have h := launchIDE_zero_line_file_only ideWorldVim paramsZeroLine "vim"
    (by decide) (by decide) (by decide) rfl rfl (by decide)
  simpa [ideWorldVim, isTerminalEditor] using h

/-- Claim C2 counterexample: a request with the `line` field omitted does
not pass `[file]` — `line` defaults to `1` and the `vim` family format is
substituted, so the spawned argument list is
`["+call cursor(1, 1)", "a.js"]`, not `["a.js"]`. -/
theorem launchIDE_omitted_line_counterexample :
    launchIDE ideWorldVim paramsNoLine
      = [IdeEvent.spawnCmd "vim" ["+call cursor(1, 1)", "a.js"]]
    ∧ (["+call cursor(1, 1)", "a.js"] : List String) ≠ ["a.js"] :=
  ⟨by decide, by decide⟩
